import Mathlib

/-!
Verification of the OTBN-PQ special-purpose register file model
(`src/dv/otbnsim/sim/pqspr.py`).

Machine integers are modelled as `Nat` (Python integers are unbounded; widths
are enforced by the asserts of the source, which become range checks or
hypotheses here).  Fallible operations (Python `assert`) return `Except`.
The generic scalar register cell (`sim/reg.py`) and the trace record
(`sim/trace.py`) are consumed-but-not-defined collaborators of the source
file; they are modelled from the spec where needed.
-/

namespace OtbnPq

/-- Modelled from the spec: a Trace Entry is an immutable record of
`(name, bit-width, optional new value)` (the `TracePQSPR`/`Trace` classes of
`sim/trace.py`, which is not part of the source under scrutiny). -/
structure TracePQSPR where
  name : String
  width : Nat
  value : Option Nat
  deriving Repr, DecidableEq

/-- Modelled from the spec: the scalar register cell (`sim/reg.py`, an external
collaborator of the source file).  It owns a fixed bit-width, a current
unsigned value, an optional pending value (absent when no write is queued this
cycle), and its index in the owning file. -/
structure Reg where
  idx : Nat
  width : Nat
  uval : Nat
  next : Option Nat
  deriving Repr, DecidableEq

namespace Reg

/-- Modelled from the spec: a read with current semantics returns the current
value (the backdoor flag does not change the returned value for a register
holding a known value). -/
def read_unsigned (r : Reg) : Nat := r.uval

/-- Modelled from the spec: a read with pending semantics; `read_next` returns
the optional pending value. -/
def read_next (r : Reg) : Option Nat := r.next

/-- Modelled from the spec: commit applies the pending value (when present) as
the new current value and always clears the pending value. -/
def commit (r : Reg) : Reg := { r with uval := r.next.getD r.uval, next := none }

/-- Modelled from the spec: abort discards the pending value, keeping the
current value. -/
def abort (r : Reg) : Reg := { r with next := none }

end Reg

/-- Sets the pending value of a cell; the common tail of every register-specific
update rule in the source (the assignment `self._next_uval = ...`). -/
def setNext (r : Reg) (v : Nat) : Reg := { r with next := some v }

/-- `PQSPRegWide.read_word_unsigned` applied to `self._uval`:
`(self._uval >> (word_idx * 32)) & 0xFFFFFFFF`.  The source asserts
`0 <= word_idx < 8`; callers and theorems carry that bound. -/
def laneOf (x : Nat) (word_idx : Nat) : Nat := (x >>> (word_idx * 32)) &&& 0xFFFFFFFF

/-- `PQSPRegWide.read_word_unsigned` on a register. -/
def PQSPRegWide.read_word_unsigned (r : Reg) (word_idx : Nat) : Nat :=
  laneOf r.uval word_idx

/-- The cleared base of `PQSPRegWide._set_word`: Python computes
`base & ~mask` with `mask = 0xFFFFFFFF << (word_idx * 32)`; on unbounded
non-negative integers `base & ~mask` equals `base ^ (base & mask)` (clearing
exactly the bits of `base` inside the mask window), which is the form used
here since `Nat` has no complement. -/
def clearWord (base : Nat) (word_idx : Nat) : Nat :=
  base ^^^ (base &&& (0xFFFFFFFF <<< (word_idx * 32)))

/-- The merged pending value computed by `PQSPRegWide._set_word`:
clear the 32-bit window at `32 * word_idx` in `base` and OR in the shifted
lane value. -/
def mergeWord (base : Nat) (word_idx : Nat) (value : Nat) : Nat :=
  clearWord base word_idx ||| (value <<< (word_idx * 32))

/-- `PQSPRegWide._set_word`: asserts `0 <= word_idx < 8` and
`0 <= value < 2^32`; initializes `_next_uval` from `_uval` when it is `None`
(so repeated same-cycle writes merge), then stores the merged value.
`_mark_written` notifies the parent file; the file-level wrappers below add
the index to the pending set. -/
def PQSPRegWide.set_word (r : Reg) (word_idx : Nat) (value : Nat) :
    Except String Reg :=
  if word_idx < 8 then
    if value < 2 ^ 32 then
      let base := r.next.getD r.uval
      Except.ok (setNext r (mergeWord base word_idx value))
    else Except.error "Value must be a 32-bit unsigned integer"
  else Except.error "Word index out of range (0-7)"

/-- `PQSPRegInc.inc`: asserts `self._uval < (1 << self._width) - 1`
(no wraparound; failing the assert leaves the register untouched), otherwise
queues `self._uval + 1` as the pending value. -/
def PQSPRegInc.inc (r : Reg) : Except String Reg :=
  if r.uval < 2 ^ r.width - 1 then
    Except.ok (setNext r (r.uval + 1))
  else Except.error "Value exceeds 32-bit range"

/-- The register file state (`PQSPRFile`).  The seventeen registers of
`__init__` are named fields; `_pending_writes` is a `Finset`.
`name_pfx` and `file_width` model `self._name_pfx` and `self._width`, which
`changes()` reads: Modelled from the spec, the file has a name prefix
("register names are the file prefix concatenated with the zero-padded
two-digit register index") and a trace width; the src snapshot of `__init__`
does not store them (the repository tests construct the file with a prefix
argument, `PQSPRFile ("p")`). -/
structure PQSPRFile where
  name_pfx : String
  file_width : Nat
  q : Reg
  q_dash : Reg
  twiddle : Reg
  omega : Reg
  psi : Reg
  idx_omega : Reg
  idx_psi : Reg
  const : Reg
  rc : Reg
  idx_rc : Reg
  m : Reg
  j : Reg
  idx_0 : Reg
  idx_1 : Reg
  mode : Reg
  x : Reg
  y : Reg
  pending_writes : Finset Nat
  deriving DecidableEq

namespace PQSPRFile

/-- `PQSPRFile.mark_written`: adds the index to the pending-writes set (its
assert `0 <= len(self._by_idx)` can never fail). -/
def mark_written (f : PQSPRFile) (idx : Nat) : PQSPRFile :=
  { f with pending_writes := insert idx f.pending_writes }

/-- The `_by_idx` mapping.  The source asserts `0 <= idx < 17` before every
lookup; the catch-all branch is unreachable under that bound and returns a
junk register. -/
def get_reg (f : PQSPRFile) (idx : Nat) : Reg :=
  match idx with
  | 0 => f.q
  | 1 => f.q_dash
  | 2 => f.twiddle
  | 3 => f.omega
  | 4 => f.psi
  | 5 => f.idx_omega
  | 6 => f.idx_psi
  | 7 => f.const
  | 8 => f.rc
  | 9 => f.idx_rc
  | 10 => f.m
  | 11 => f.j
  | 12 => f.idx_0
  | 13 => f.idx_1
  | 14 => f.mode
  | 15 => f.x
  | 16 => f.y
  | _ => { idx := idx, width := 0, uval := 0, next := none }

/-- Python `"{:02}".format (idx)`: decimal, zero-padded to at least two
digits (all file indices are below 17, hence below 100). -/
def pad2 (n : Nat) : String :=
  if n < 10 then "0" ++ toString n else toString n

/-- `PQSPRFile.changes`: one trace entry per pending index, in ascending
index order (`sorted(self._pending_writes)`), named
`"{}{:02}".format(self._name_pfx, idx)`, carrying `read_next()` of the
register and the file width. -/
def changes (f : PQSPRFile) : List TracePQSPR :=
  (f.pending_writes.sort (· ≤ ·)).map fun idx =>
    { name := f.name_pfx ++ pad2 idx
      width := f.file_width
      value := (f.get_reg idx).read_next }

/-- One step of the commit loop: the register at index `i` is committed
exactly when `i` is in the pending set. -/
def commitIf (f : PQSPRFile) (i : Nat) (r : Reg) : Reg :=
  if i ∈ f.pending_writes then r.commit else r

/-- `PQSPRFile.commit`: the source iterates the pending set, calling
`self._by_idx[idx].commit()` for each member, then clears the set.  The
seventeen registers are distinct objects and the per-register commits are
independent, so the loop is equivalently written per field (a pending index
outside 0..16 would raise `KeyError` in the source; theorems whose claims
range over file states carry the bound `pending_writes` within 0..16, which
every operation of the file maintains). -/
def commit (f : PQSPRFile) : PQSPRFile :=
  { f with
    q := commitIf f 0 f.q
    q_dash := commitIf f 1 f.q_dash
    twiddle := commitIf f 2 f.twiddle
    omega := commitIf f 3 f.omega
    psi := commitIf f 4 f.psi
    idx_omega := commitIf f 5 f.idx_omega
    idx_psi := commitIf f 6 f.idx_psi
    const := commitIf f 7 f.const
    rc := commitIf f 8 f.rc
    idx_rc := commitIf f 9 f.idx_rc
    m := commitIf f 10 f.m
    j := commitIf f 11 f.j
    idx_0 := commitIf f 12 f.idx_0
    idx_1 := commitIf f 13 f.idx_1
    mode := commitIf f 14 f.mode
    x := commitIf f 15 f.x
    y := commitIf f 16 f.y
    pending_writes := ∅ }

/-- One step of the abort loop, mirroring `commitIf`. -/
def abortIf (f : PQSPRFile) (i : Nat) (r : Reg) : Reg :=
  if i ∈ f.pending_writes then r.abort else r

/-- `PQSPRFile.abort`: structural mirror of `commit` (per-register abort,
then clear the pending set). -/
def abort (f : PQSPRFile) : PQSPRFile :=
  { f with
    q := abortIf f 0 f.q
    q_dash := abortIf f 1 f.q_dash
    twiddle := abortIf f 2 f.twiddle
    omega := abortIf f 3 f.omega
    psi := abortIf f 4 f.psi
    idx_omega := abortIf f 5 f.idx_omega
    idx_psi := abortIf f 6 f.idx_psi
    const := abortIf f 7 f.const
    rc := abortIf f 8 f.rc
    idx_rc := abortIf f 9 f.idx_rc
    m := abortIf f 10 f.m
    j := abortIf f 11 f.j
    idx_0 := abortIf f 12 f.idx_0
    idx_1 := abortIf f 13 f.idx_1
    mode := abortIf f 14 f.mode
    x := abortIf f 15 f.x
    y := abortIf f 16 f.y
    pending_writes := ∅ }

/-- `PQSPRFile.peek_unsigned_values` as written in the source:
`[reg.read_unsigned(backdoor=True) for reg in self._by_idx]`.
Iterating `self._by_idx` — a dict — yields its seventeen integer keys, not
the register objects, and calling `read_unsigned` on an `int` raises
`AttributeError` at the first element (contrast `wipe()`, which correctly
iterates `self._by_idx.values()`). -/
def peek_unsigned_values (_f : PQSPRFile) : Except String (List Nat) :=
  (List.range 17).mapM fun _k =>
    (Except.error "AttributeError: int has no attribute read_unsigned"
      : Except String Nat)

/-- What the docstring of `peek_unsigned_values` ("Get a list of the
(unsigned) values of the registers") and the spec ("a backdoor snapshot of
every register current value, one entry per register") describe: the
intended behavior, for comparison with the code. -/
def peekValuesSpec (f : PQSPRFile) : List Nat :=
  (List.range 17).map fun i => (f.get_reg i).read_unsigned

end PQSPRFile

/-- A fresh 32- or 256-bit register at value 0, as built by
`PQSPRFile.__init__`. -/
def initReg (idx : Nat) (width : Nat) : Reg :=
  { idx := idx, width := width, uval := 0, next := none }

/-- `PQSPRFile.__init__`: all seventeen registers at value 0 with their fixed
widths and indices, empty pending set.  The prefix and trace width are the
spec-modelled construction parameters (see `PQSPRFile`). -/
def PQSPRFile.init (pfx : String) (w : Nat) : PQSPRFile :=
  { name_pfx := pfx
    file_width := w
    q := initReg 0 32
    q_dash := initReg 1 32
    twiddle := initReg 2 32
    omega := initReg 3 256
    psi := initReg 4 256
    idx_omega := initReg 5 32
    idx_psi := initReg 6 32
    const := initReg 7 32
    rc := initReg 8 256
    idx_rc := initReg 9 32
    m := initReg 10 32
    j := initReg 11 32
    idx_0 := initReg 12 32
    idx_1 := initReg 13 32
    mode := initReg 14 32
    x := initReg 15 32
    y := initReg 16 32
    pending_writes := ∅ }

/-- `PQSPRegTwiddle.inv`: queues `self.parent.q.read_unsigned() - self._uval`
and marks register 2 written.  Python subtraction is on unbounded integers;
this `Nat` form agrees with it exactly when `twiddle <= q`, and the documented
precondition of the operation is that the modulus exceeds the twiddle value
(all theorems about `inv` carry that precondition). -/
def PQSPRegTwiddle.inv (f : PQSPRFile) : PQSPRFile :=
  ({ f with
      twiddle := setNext f.twiddle (f.q.read_unsigned - f.twiddle.uval) }).mark_written 2

/-- `PQSPRegTwiddle.update`: Montgomery multiplication of the current twiddle
value by the omega lane selected by `idx_omega`, as written in the source
(`read_word_unsigned` asserts that the lane index is below 8):
`p = twiddle * omega`; `m = (p & 0xFFFFFFFF) * q_inv`;
`s = p + ((m & 0xFFFFFFFF) * q)`; `t = (s >> 32) & 0xFFFFFFFF`;
`if t >= q: t -= q`; queue `t` and mark register 2 written. -/
def PQSPRegTwiddle.update (f : PQSPRFile) : Except String PQSPRFile :=
  let widx := f.idx_omega.read_unsigned
  if widx < 8 then
    let omega := PQSPRegWide.read_word_unsigned f.omega widx
    let q := f.q.read_unsigned
    let q_inv := f.q_dash.read_unsigned
    let twiddle := f.twiddle.uval
    let p := twiddle * omega
    let m := (p &&& 0xFFFFFFFF) * q_inv
    let s := p + ((m &&& 0xFFFFFFFF) * q)
    let t0 := (s >>> 32) &&& 0xFFFFFFFF
    let t := if t0 ≥ q then t0 - q else t0
    Except.ok (({ f with twiddle := setNext f.twiddle t }).mark_written 2)
  else Except.error "Word index out of range (0-7)"

/-- `PQSPRegOmega.update`: the identical Montgomery step with the full
256-bit current value of omega as both operands (`omega = self._uval`,
`p = omega * omega`), queueing the reduced 32-bit result on register 3.
No assert guards this operation. -/
def PQSPRegOmega.update (f : PQSPRFile) : PQSPRFile :=
  let omega := f.omega.uval
  let q := f.q.read_unsigned
  let q_inv := f.q_dash.read_unsigned
  let p := omega * omega
  let m := (p &&& 0xFFFFFFFF) * q_inv
  let s := p + ((m &&& 0xFFFFFFFF) * q)
  let t0 := (s >>> 32) &&& 0xFFFFFFFF
  let t := if t0 ≥ q then t0 - q else t0
  ({ f with omega := setNext f.omega t }).mark_written 3

/-- The spec wording of the Montgomery update step (section 4.5, applied with
operand-squared in 4.6): `p = a * b`; `m = (p mod 2^32) * q_dash mod 2^32`;
`s = p + (m mod 2^32) * q`; `t = (s >> 32) mod 2^32`; if `t >= q` then
`t - q`.  Stated from the words of the spec, for comparison with the code. -/
def montUpdateSpecVal (a b qv q_dash : Nat) : Nat :=
  let p := a * b
  let m := (p % 2 ^ 32) * q_dash % 2 ^ 32
  let s := p + (m % 2 ^ 32) * qv
  let t := (s >>> 32) % 2 ^ 32
  if t ≥ qv then t - qv else t

/-- The spec formula of `updateByOmega` instantiated with the operands the
spec names: the current twiddle value, the omega lane selected by the
omega-index counter, the modulus and the Montgomery constant. -/
def twiddleSpecNext (f : PQSPRFile) : Nat :=
  montUpdateSpecVal f.twiddle.uval
    (PQSPRegWide.read_word_unsigned f.omega f.idx_omega.uval)
    f.q.uval f.q_dash.uval

/-- The next-value computation of `PQSPRegM.update`:
`((m & 0x7f) << 1) if mode else ((m & 0xff) >> 1)` (Python truthiness:
the doubling branch is taken exactly when `mode` is nonzero). -/
def PQSPRegM.update_val (v : Nat) (mode : Nat) : Nat :=
  if mode ≠ 0 then (v &&& 0x7f) <<< 1 else (v &&& 0xff) >>> 1

/-- `PQSPRegM.update`: reads its own current value and the `mode` register,
queues the shifted-and-masked next value, marks register 10 written. -/
def PQSPRegM.update (f : PQSPRFile) : PQSPRFile :=
  ({ f with
      m := setNext f.m (PQSPRegM.update_val f.m.read_unsigned f.mode.read_unsigned)
    }).mark_written 10

/-- Modelled from the spec: the paired 32-bit stride register J2 and its
update rule.  The src snapshot of `PQSPRFile.__init__` does not register
`j2`, but the repository tests exercise `pqspr_file.j2` (doubling when the
mode flag is clear, halving when it is set); the spec states the pair
computes the complementary transform to the rule of M.  Next value:
`(v & 0x7F) << 1` when `mode` is clear, `(v & 0xFF) >> 1` when `mode` is
set. -/
def PQSPRegJ2.update_val (v : Nat) (mode : Nat) : Nat :=
  if mode ≠ 0 then (v &&& 0xff) >>> 1 else (v &&& 0x7f) <<< 1

/-- Modelled from the spec: the J2 register update queues its transformed own
value as the pending value (two-phase, like every other register update). -/
def PQSPRegJ2.update (j2 : Reg) (mode : Reg) : Reg :=
  setNext j2 (PQSPRegJ2.update_val j2.uval mode.uval)

/-- The bit reversal of one byte performed by `PQSPRegIncIdx.set`:
`int(f"{value:08b}"[::-1], 2)`.  For `value < 256` (always the case, the
source masks with `0xFF` first) the 8-character binary string reversed makes
bit `i` of the input bit `7 - i` of the output. -/
def bit_reverse8 (v : Nat) : Nat :=
  (List.range 8).foldl (fun acc i => acc ||| (((v >>> i) &&& 1) <<< (7 - i))) 0

/-- The next-value computation of `PQSPRegIncIdx.set`: take the low byte of
counter `j`, bit-reverse it, and either return it directly (identity
`id = 12`, register `idx_0`) or add the stride register `m` and mask to 8
bits (identity `id = 13`, register `idx_1`). -/
def PQSPRegIncIdx.set_val (f : PQSPRFile) (id : Nat) : Nat :=
  let value := f.j.read_unsigned &&& 0xFF
  let br := bit_reverse8 value
  let add := (br + f.m.read_unsigned) &&& 0xff
  if id = 12 then br else add

/-- `PQSPRegIncIdx.set` invoked on `idx_0` (whose `self.id` is 12). -/
def idx_0_set (f : PQSPRFile) : PQSPRFile :=
  ({ f with idx_0 := setNext f.idx_0 (PQSPRegIncIdx.set_val f 12) }).mark_written 12

/-- `PQSPRegIncIdx.set` invoked on `idx_1` (whose `self.id` is 13). -/
def idx_1_set (f : PQSPRFile) : PQSPRFile :=
  ({ f with idx_1 := setNext f.idx_1 (PQSPRegIncIdx.set_val f 13) }).mark_written 13

/-- File-level increment of counter `j` (index 11): `PQSPRegInc.inc` plus
the `_mark_written` notification to the parent file. -/
def j_inc (f : PQSPRFile) : Except String PQSPRFile :=
  match PQSPRegInc.inc f.j with
  | Except.ok r => Except.ok (({ f with j := r }).mark_written 11)
  | Except.error e => Except.error e

/-! ### Arithmetic facts about the 32-bit mask, lanes and the merge rule -/

lemma hexMask_eq : (0xFFFFFFFF : Nat) = 2 ^ 32 - 1 := by norm_num

lemma and_mask32 (x : Nat) : x &&& 0xFFFFFFFF = x % 2 ^ 32 := by
  rw [hexMask_eq, Nat.and_pow_two_sub_one_eq_mod]

lemma mod32_mod32 (a : Nat) : a % 2 ^ 32 % 2 ^ 32 = a % 2 ^ 32 :=
  Nat.mod_mod_of_dvd a dvd_rfl

/-- The source Montgomery-step expression (with `& 0xFFFFFFFF` masks, as in
`PQSPRegTwiddle.update` and `PQSPRegOmega.update`) equals the formula stated
by the spec (with `mod 2^32`). -/
lemma mont_code_eq_spec (a b qv qd : Nat) :
    (if ((a * b + ((((a * b &&& 0xFFFFFFFF) * qd) &&& 0xFFFFFFFF) * qv)) >>> 32) &&& 0xFFFFFFFF ≥ qv
     then (((a * b + ((((a * b &&& 0xFFFFFFFF) * qd) &&& 0xFFFFFFFF) * qv)) >>> 32) &&& 0xFFFFFFFF) - qv
     else ((a * b + ((((a * b &&& 0xFFFFFFFF) * qd) &&& 0xFFFFFFFF) * qv)) >>> 32) &&& 0xFFFFFFFF)
      = montUpdateSpecVal a b qv qd := by
  simp only [montUpdateSpecVal, and_mask32, mod32_mod32]

/-- The Montgomery-step result is a 32-bit value. -/
lemma montUpdateSpecVal_lt (a b qv qd : Nat) :
    montUpdateSpecVal a b qv qd < 2 ^ 32 := by
  simp only [montUpdateSpecVal]
  split <;> omega

lemma testBit_laneOf (x i k : Nat) :
    (laneOf x i).testBit k = (decide (k < 32) && x.testBit (i * 32 + k)) := by
  rw [laneOf, Nat.testBit_and, Nat.testBit_shiftRight, hexMask_eq,
    Nat.testBit_two_pow_sub_one]
  exact Bool.and_comm _ _

lemma bool_xor_and_self (a b : Bool) : (a ^^ (a && b)) = (a && !b) := by
  cases a <;> cases b <;> rfl

lemma testBit_maskShift (i b : Nat) :
    (0xFFFFFFFF <<< (i * 32)).testBit b
      = (decide (b ≥ i * 32) && decide (b - i * 32 < 32)) := by
  rw [hexMask_eq]
  simp only [Nat.testBit_shiftLeft, Nat.testBit_two_pow_sub_one]

lemma testBit_clearWord (base i b : Nat) :
    (clearWord base i).testBit b
      = (base.testBit b && !(decide (b ≥ i * 32) && decide (b - i * 32 < 32))) := by
  rw [clearWord, Nat.testBit_xor, Nat.testBit_and, testBit_maskShift]
  exact bool_xor_and_self _ _

/-- Merging lane `i` leaves every other lane of the base value unchanged. -/
lemma laneOf_mergeWord_other (base v i j : Nat) (hij : i ≠ j) (hv : v < 2 ^ 32) :
    laneOf (mergeWord base i v) j = laneOf base j := by
  apply Nat.eq_of_testBit_eq
  intro k
  rw [testBit_laneOf, testBit_laneOf]
  by_cases hk : k < 32
  · suffices h : (mergeWord base i v).testBit (j * 32 + k) = base.testBit (j * 32 + k) by
      rw [h]
    rw [mergeWord, Nat.testBit_or, testBit_clearWord, Nat.testBit_shiftLeft]
    rcases Nat.lt_or_ge j i with hji | hji
    · have h1 : ¬ j * 32 + k ≥ i * 32 := by omega
      simp [h1]
    · have hij' : i < j := Nat.lt_of_le_of_ne hji hij
      have h2 : ¬ j * 32 + k - i * 32 < 32 := by omega
      have h3 : v.testBit (j * 32 + k - i * 32) = false :=
        Nat.testBit_lt_two_pow
          (lt_of_lt_of_le hv (Nat.pow_le_pow_right (by omega) (by omega)))
      simp [h2, h3]
  · simp [hk]

/-- Merging lane `i` makes lane `i` of the pending value the written value. -/
lemma laneOf_mergeWord_self (base v i : Nat) (hv : v < 2 ^ 32) :
    laneOf (mergeWord base i v) i = v := by
  apply Nat.eq_of_testBit_eq
  intro k
  rw [testBit_laneOf]
  by_cases hk : k < 32
  · have hb : i * 32 + k ≥ i * 32 := Nat.le_add_right _ _
    have hb2 : i * 32 + k - i * 32 < 32 := by omega
    have hsub : i * 32 + k - i * 32 = k := by omega
    rw [mergeWord, Nat.testBit_or, testBit_clearWord, Nat.testBit_shiftLeft, hsub]
    simp [hb, hb2, hk]
  · have hvk : v.testBit k = false :=
      Nat.testBit_lt_two_pow
        (lt_of_lt_of_le hv (Nat.pow_le_pow_right (by omega) (by omega)))
    simp [hk, hvk]

/-- Every lane above lane 0 of a value below `2^32` is zero. -/
lemma laneOf_eq_zero_of_lt {t : Nat} (ht : t < 2 ^ 32) {k : Nat} (hk : 1 ≤ k) :
    laneOf t k = 0 := by
  rw [laneOf, Nat.shiftRight_eq_div_pow,
    Nat.div_eq_of_lt (lt_of_lt_of_le ht (Nat.pow_le_pow_right (by omega) (by omega))),
    Nat.zero_and]

/-- Committing a freshly queued pending value installs it as the current
value. -/
lemma commit_setNext (r : Reg) (n : Nat) :
    (setNext r n).commit = { r with uval := n, next := none } := rfl

/-- Committing a file with an empty pending set is a no-op on the whole
state. -/
lemma commit_of_empty (f : PQSPRFile) (h : f.pending_writes = ∅) :
    f.commit = f := by
  have hc : ∀ i r, f.commitIf i r = r := by
    intro i r
    rw [PQSPRFile.commitIf, h]
    simp
  simp only [PQSPRFile.commit, hc]
  rw [← h]

/-- Aborting a file with an empty pending set is a no-op on the whole
state. -/
lemma abort_of_empty (f : PQSPRFile) (h : f.pending_writes = ∅) :
    f.abort = f := by
  have hc : ∀ i r, f.abortIf i r = r := by
    intro i r
    rw [PQSPRFile.abortIf, h]
    simp
  simp only [PQSPRFile.abort, hc]
  rw [← h]

/-! ### Concrete committed states used by the spec's worked examples -/

/-- Committed state of the first twiddle-update example: `omega = 0x1234`
(lane 0, omega-index counter 0), `q = 0xD01`, `q_dash = 0x94570cff`,
`twiddle = 0x2`. -/
def exTw1 : PQSPRFile :=
  { PQSPRFile.init "p" 32 with
    omega := { idx := 3, width := 256, uval := 0x1234, next := none }
    q := { idx := 0, width := 32, uval := 0xD01, next := none }
    q_dash := { idx := 1, width := 32, uval := 0x94570cff, next := none }
    twiddle := { idx := 2, width := 32, uval := 0x2, next := none } }

/-- Committed state of the second twiddle-update example: `omega = 0x01234567`,
`q = 0xD01`, `q_dash = 0x94570cff`, `twiddle = 0x89abcdef`. -/
def exTw2 : PQSPRFile :=
  { PQSPRFile.init "p" 32 with
    omega := { idx := 3, width := 256, uval := 0x01234567, next := none }
    q := { idx := 0, width := 32, uval := 0xD01, next := none }
    q_dash := { idx := 1, width := 32, uval := 0x94570cff, next := none }
    twiddle := { idx := 2, width := 32, uval := 0x89abcdef, next := none } }

/-- Committed state of the modular-negation example: `q = 0x55`,
`twiddle = 0x22`. -/
def exInv : PQSPRFile :=
  { PQSPRFile.init "p" 32 with
    q := { idx := 0, width := 32, uval := 0x55, next := none }
    twiddle := { idx := 2, width := 32, uval := 0x22, next := none } }

/-- Committed state of the bit-reversed address-generation example:
counter `j = 0x333`, stride register `m = 0x11`. -/
def exIdx : PQSPRFile :=
  { PQSPRFile.init "p" 32 with
    j := { idx := 11, width := 32, uval := 0x333, next := none }
    m := { idx := 10, width := 32, uval := 0x11, next := none } }

/-- A file with one outstanding pending write (register 2, queued by the
twiddle negation), used to exercise `changes`, `commit` and `abort`. -/
def exPend : PQSPRFile := PQSPRegTwiddle.inv exInv

/-! ### Claims -/

/-- Claim C1: `PQSPRegTwiddle.update` computes, from the current twiddle
value, the omega lane selected by the omega-index counter, the modulus `q`
and the Montgomery constant `q_dash`, exactly
`p = twiddle * omega`; `m = (p mod 2^32) * q_dash mod 2^32`;
`s = p + (m mod 2^32) * q`; `t = (s >> 32) mod 2^32`; then `t = t - q` if
`t >= q`; and sets the pending value to `t` (marking register 2 written and
changing nothing else).  In particular, with committed state
`omega = 0x1234` (lane 0, index counter 0), `q = 0xD01`,
`q_dash = 0x94570cff`, `twiddle = 0x2`, update then commit yields
`twiddle = 0x690`; and with `omega = 0x01234567`, same `q` and `q_dash`,
`twiddle = 0x89abcdef`, it yields `0x9CA02C`. -/
theorem C1_twiddle_update_montgomery (f : PQSPRFile)
    (h8 : f.idx_omega.uval < 8) :
    PQSPRegTwiddle.update f = Except.ok
      (({ f with twiddle := setNext f.twiddle (twiddleSpecNext f) }).mark_written 2)
  ∧ (PQSPRegTwiddle.update exTw1).map (fun f2 => f2.commit.twiddle.uval)
      = Except.ok 0x690
  ∧ (PQSPRegTwiddle.update exTw2).map (fun f2 => f2.commit.twiddle.uval)
      = Except.ok 0x9CA02C := by
  refine ⟨?_, rfl, rfl⟩
  simp only [PQSPRegTwiddle.update, Reg.read_unsigned]
  rw [if_pos h8]
  exact congrArg
    (fun t => Except.ok (({ f with twiddle := setNext f.twiddle t }).mark_written 2))
    (mont_code_eq_spec f.twiddle.uval
      (PQSPRegWide.read_word_unsigned f.omega f.idx_omega.uval)
      f.q.uval f.q_dash.uval)

/-- Closed witness for C1 at the first worked example. -/
theorem C1_twiddle_update_montgomery_witness :
    exTw1.idx_omega.uval < 8
  ∧ (PQSPRegTwiddle.update exTw1 = Except.ok
        (({ exTw1 with twiddle := setNext exTw1.twiddle (twiddleSpecNext exTw1) }).mark_written 2)
      ∧ (PQSPRegTwiddle.update exTw1).map (fun f2 => f2.commit.twiddle.uval)
          = Except.ok 0x690
      ∧ (PQSPRegTwiddle.update exTw2).map (fun f2 => f2.commit.twiddle.uval)
          = Except.ok 0x9CA02C) :=
  ⟨by decide, C1_twiddle_update_montgomery exTw1 (by decide)⟩

/-- Claim C2: writing lane `i` of a wide register merges the value into the
pending 256-bit value by clearing the 32-bit window at offset `32*i` in the
current value if no pending value exists this cycle, otherwise in the
existing pending value, and OR-ing in the shifted lane value; consequently
for `i ≠ j` writing lane `i` then committing leaves lane `j` at its
pre-cycle committed value, and several lane writes in the same cycle
compose. -/
theorem C2_wide_lane_merge_frame (r : Reg) (i j v w : Nat)
    (hi : i < 8) (hj : j < 8) (hij : i ≠ j) (hv : v < 2 ^ 32) (hw : w < 2 ^ 32) :
    (∀ r2, PQSPRegWide.set_word r i v = Except.ok r2 →
        r2.next = some (mergeWord (r.next.getD r.uval) i v)
        ∧ laneOf (mergeWord (r.next.getD r.uval) i v) i = v
        ∧ laneOf (mergeWord (r.next.getD r.uval) i v) j
            = laneOf (r.next.getD r.uval) j)
  ∧ (r.next = none → ∀ r2, PQSPRegWide.set_word r i v = Except.ok r2 →
        PQSPRegWide.read_word_unsigned r2.commit j
            = PQSPRegWide.read_word_unsigned r j
        ∧ PQSPRegWide.read_word_unsigned r2.commit i = v)
  ∧ (r.next = none → ∀ r2 r3, PQSPRegWide.set_word r i v = Except.ok r2 →
        PQSPRegWide.set_word r2 j w = Except.ok r3 →
        PQSPRegWide.read_word_unsigned r3.commit i = v
        ∧ PQSPRegWide.read_word_unsigned r3.commit j = w) := by
  have hset : PQSPRegWide.set_word r i v
      = Except.ok (setNext r (mergeWord (r.next.getD r.uval) i v)) := by
    rw [PQSPRegWide.set_word, if_pos hi, if_pos hv]
  refine ⟨?_, ?_, ?_⟩
  · intro r2 h2
    rw [hset] at h2
    injection h2 with h2
    subst h2
    exact ⟨rfl, laneOf_mergeWord_self _ _ _ hv,
      laneOf_mergeWord_other _ _ _ _ hij hv⟩
  · intro hn r2 h2
    rw [hset, hn] at h2
    injection h2 with h2
    subst h2
    simp only [Option.getD_none]
    constructor
    · show laneOf (mergeWord r.uval i v) j = laneOf r.uval j
      exact laneOf_mergeWord_other _ _ _ _ hij hv
    · show laneOf (mergeWord r.uval i v) i = v
      exact laneOf_mergeWord_self _ _ _ hv
  · intro hn r2 r3 h2 h3
    rw [hset, hn] at h2
    injection h2 with h2
    subst h2
    rw [PQSPRegWide.set_word, if_pos hj, if_pos hw] at h3
    injection h3 with h3
    subst h3
    simp only [Option.getD_none, setNext, Option.getD_some]
    constructor
    · show laneOf (mergeWord (mergeWord r.uval i v) j w) i = v
      rw [laneOf_mergeWord_other _ _ _ _ (Ne.symm hij) hw]
      exact laneOf_mergeWord_self _ _ _ hv
    · show laneOf (mergeWord (mergeWord r.uval i v) j w) j = w
      exact laneOf_mergeWord_self _ _ _ hw

/-- Closed witness for C2: lanes 0 and 1 of a zeroed wide register. -/
theorem C2_wide_lane_merge_frame_witness :
    ((0 : Nat) < 8 ∧ (1 : Nat) < 8 ∧ (0 : Nat) ≠ 1
      ∧ (0xDEADBEEF : Nat) < 2 ^ 32 ∧ (0x11223344 : Nat) < 2 ^ 32)
  ∧ ((∀ r2, PQSPRegWide.set_word (initReg 3 256) 0 0xDEADBEEF = Except.ok r2 →
        r2.next = some (mergeWord ((initReg 3 256).next.getD (initReg 3 256).uval) 0 0xDEADBEEF)
        ∧ laneOf (mergeWord ((initReg 3 256).next.getD (initReg 3 256).uval) 0 0xDEADBEEF) 0 = 0xDEADBEEF
        ∧ laneOf (mergeWord ((initReg 3 256).next.getD (initReg 3 256).uval) 0 0xDEADBEEF) 1
            = laneOf ((initReg 3 256).next.getD (initReg 3 256).uval) 1)
      ∧ ((initReg 3 256).next = none →
          ∀ r2, PQSPRegWide.set_word (initReg 3 256) 0 0xDEADBEEF = Except.ok r2 →
          PQSPRegWide.read_word_unsigned r2.commit 1
              = PQSPRegWide.read_word_unsigned (initReg 3 256) 1
          ∧ PQSPRegWide.read_word_unsigned r2.commit 0 = 0xDEADBEEF)
      ∧ ((initReg 3 256).next = none →
          ∀ r2 r3, PQSPRegWide.set_word (initReg 3 256) 0 0xDEADBEEF = Except.ok r2 →
          PQSPRegWide.set_word r2 1 0x11223344 = Except.ok r3 →
          PQSPRegWide.read_word_unsigned r3.commit 0 = 0xDEADBEEF
          ∧ PQSPRegWide.read_word_unsigned r3.commit 1 = 0x11223344)) :=
  ⟨⟨by decide, by decide, by decide, by decide, by decide⟩,
    C2_wide_lane_merge_frame (initReg 3 256) 0 1 0xDEADBEEF 0x11223344
      (by decide) (by decide) (by decide) (by decide) (by decide)⟩

/-- Claim C7: under the precondition that the current modulus value exceeds
the current twiddle value, `PQSPRegTwiddle.inv` sets the pending value to
exactly `q - v` by a single subtraction with no wraparound handling (the sum
of the old twiddle value and the queued value is exactly `q`); with
`q = 0x55` and `twiddle = 0x22`, `inv` then commit yields `0x33`. -/
theorem C7_inv_negate_mod_q (f : PQSPRFile)
    (h : f.twiddle.uval < f.q.uval) :
    (PQSPRegTwiddle.inv f).twiddle.next = some (f.q.uval - f.twiddle.uval)
  ∧ (PQSPRegTwiddle.inv f).twiddle.uval = f.twiddle.uval
  ∧ (PQSPRegTwiddle.inv f).pending_writes = insert 2 f.pending_writes
  ∧ f.twiddle.uval + (f.q.uval - f.twiddle.uval) = f.q.uval
  ∧ (PQSPRegTwiddle.inv exInv).commit.twiddle.uval = 0x33 :=
  ⟨rfl, rfl, rfl, by omega, rfl⟩

/-- Closed witness for C7 at the worked example `q = 0x55`,
`twiddle = 0x22`. -/
theorem C7_inv_negate_mod_q_witness :
    exInv.twiddle.uval < exInv.q.uval
  ∧ ((PQSPRegTwiddle.inv exInv).twiddle.next
        = some (exInv.q.uval - exInv.twiddle.uval)
      ∧ (PQSPRegTwiddle.inv exInv).twiddle.uval = exInv.twiddle.uval
      ∧ (PQSPRegTwiddle.inv exInv).pending_writes
          = insert 2 exInv.pending_writes
      ∧ exInv.twiddle.uval + (exInv.q.uval - exInv.twiddle.uval) = exInv.q.uval
      ∧ (PQSPRegTwiddle.inv exInv).commit.twiddle.uval = 0x33) :=
  ⟨by decide, C7_inv_negate_mod_q exInv (by decide)⟩

/-- Claim C3: for every file state with a non-empty pending set (all of whose
indices are in range, as the asserts of the loop require), `changes` returns
one trace entry per index of the pending set, in ascending index order, each
carrying the pending value of that register (`read_next`) and named with the
file prefix concatenated with the zero-padded two-digit register index. -/
theorem C3_changes_sorted_entries (f : PQSPRFile)
    (hne : f.pending_writes.Nonempty)
    (hwf : ∀ i ∈ f.pending_writes, i < 17) :
    ∃ idxs : List Nat,
      List.Sorted (· < ·) idxs
      ∧ (∀ i, i ∈ idxs ↔ i ∈ f.pending_writes)
      ∧ f.changes = idxs.map (fun idx =>
          { name := f.name_pfx ++ PQSPRFile.pad2 idx
            width := f.file_width
            value := (f.get_reg idx).read_next })
      ∧ f.changes.length = f.pending_writes.card := by
  refine ⟨f.pending_writes.sort (· ≤ ·), Finset.sort_sorted_lt _,
    fun i => Finset.mem_sort _, rfl, ?_⟩
  simp [PQSPRFile.changes, Finset.length_sort]

/-- Closed witness for C3 at a file whose pending set is `{2}`. -/
theorem C3_changes_sorted_entries_witness :
    exPend.pending_writes.Nonempty
  ∧ (∀ i ∈ exPend.pending_writes, i < 17)
  ∧ (∃ idxs : List Nat,
      List.Sorted (· < ·) idxs
      ∧ (∀ i, i ∈ idxs ↔ i ∈ exPend.pending_writes)
      ∧ exPend.changes = idxs.map (fun idx =>
          { name := exPend.name_pfx ++ PQSPRFile.pad2 idx
            width := exPend.file_width
            value := (exPend.get_reg idx).read_next })
      ∧ exPend.changes.length = exPend.pending_writes.card) :=
  ⟨⟨2, by decide⟩, by decide,
    C3_changes_sorted_entries exPend ⟨2, by decide⟩ (by decide)⟩

/-- Claim C4: the claim says `peek_unsigned_values` returns the list of every
register's current value; the code instead iterates the keys of the
`_by_idx` dict and calls `read_unsigned` on an `int`, raising
`AttributeError` on any file state — here evaluated at the freshly
constructed file — while the intended result there would be seventeen
zeros. -/
theorem C4_peek_values_attribute_error :
    (PQSPRFile.init "p" 32).peek_unsigned_values
      = Except.error "AttributeError: int has no attribute read_unsigned"
  ∧ (PQSPRFile.init "p" 32).peekValuesSpec = List.replicate 17 0 :=
  ⟨rfl, rfl⟩

/-- Claim C5: a saturating counter's `inc` fails (assert) exactly when the
current value is `2^32 - 1`; otherwise it queues `current + 1` as the
pending value, leaves the current value unchanged, stays inside the 32-bit
range (no wraparound), and — through `_mark_written` — the register's index
joins the file's pending set (shown for the file-level wrapper of counter
`j`). -/
theorem C5_inc_saturates (r : Reg) (hw : r.width = 32) (hv : r.uval < 2 ^ 32) :
    ((∃ e, PQSPRegInc.inc r = Except.error e) ↔ r.uval = 2 ^ 32 - 1)
  ∧ (∀ r2, PQSPRegInc.inc r = Except.ok r2 →
      r2.uval = r.uval ∧ r2.next = some (r.uval + 1) ∧ r.uval + 1 < 2 ^ 32)
  ∧ (∀ f : PQSPRFile, ∀ f2, j_inc f = Except.ok f2 →
      11 ∈ f2.pending_writes ∧ f2.j.next = some (f.j.uval + 1)) := by
  refine ⟨?_, ?_, ?_⟩
  · rw [PQSPRegInc.inc, hw]
    constructor
    · intro ⟨e, he⟩
      by_cases hlt : r.uval < 2 ^ 32 - 1
      · rw [if_pos hlt] at he
        exact absurd he (by simp)
      · omega
    · intro hmax
      rw [if_neg (by omega)]
      exact ⟨"Value exceeds 32-bit range", rfl⟩
  · intro r2 h2
    rw [PQSPRegInc.inc, hw] at h2
    by_cases hlt : r.uval < 2 ^ 32 - 1
    · rw [if_pos hlt] at h2
      injection h2 with h2
      subst h2
      exact ⟨rfl, rfl, by omega⟩
    · rw [if_neg hlt] at h2
      exact absurd h2 (by simp)
  · intro f f2 h2
    rw [j_inc] at h2
    rcases hj : PQSPRegInc.inc f.j with e | rj
    · rw [hj] at h2
      exact absurd h2 (by simp)
    · rw [hj] at h2
      injection h2 with h2
      subst h2
      rw [PQSPRegInc.inc] at hj
      by_cases hlt : f.j.uval < 2 ^ f.j.width - 1
      · rw [if_pos hlt] at hj
        injection hj with hj
        subst hj
        exact ⟨Finset.mem_insert_self _ _, rfl⟩
      · rw [if_neg hlt] at hj
        exact absurd hj (by simp)

/-- Closed witness for C5 at a 32-bit counter holding 5. -/
theorem C5_inc_saturates_witness :
    (initReg 5 32).width = 32 ∧ (initReg 5 32).uval < 2 ^ 32
  ∧ (((∃ e, PQSPRegInc.inc (initReg 5 32) = Except.error e)
        ↔ (initReg 5 32).uval = 2 ^ 32 - 1)
      ∧ (∀ r2, PQSPRegInc.inc (initReg 5 32) = Except.ok r2 →
          r2.uval = (initReg 5 32).uval
          ∧ r2.next = some ((initReg 5 32).uval + 1)
          ∧ (initReg 5 32).uval + 1 < 2 ^ 32)
      ∧ (∀ f : PQSPRFile, ∀ f2, j_inc f = Except.ok f2 →
          11 ∈ f2.pending_writes ∧ f2.j.next = some (f.j.uval + 1))) :=
  ⟨rfl, by decide, C5_inc_saturates (initReg 5 32) rfl (by decide)⟩

/-- Claim C6: `PQSPRegIncIdx.set` on the plain identity (`idx_0`, id 12) sets
the pending value to the bit-reversal of the low byte of counter `j` (bit 7
of the input becomes bit 0 of the output), and on the offset identity
(`idx_1`, id 13) to the bit-reversed byte plus the stride register `m`,
masked to 8 bits; with `j = 0x333` the plain identity yields `0xCC` after
commit, and with `m = 0x11` the offset identity yields `0xDD`. -/
theorem C6_set_bit_reversed (f : PQSPRFile) :
    (idx_0_set f).idx_0.next = some (bit_reverse8 (f.j.uval &&& 0xFF))
  ∧ (idx_1_set f).idx_1.next
      = some ((bit_reverse8 (f.j.uval &&& 0xFF) + f.m.uval) &&& 0xFF)
  ∧ (idx_0_set f).pending_writes = insert 12 f.pending_writes
  ∧ (idx_1_set f).pending_writes = insert 13 f.pending_writes
  ∧ (∀ v, v < 256 → ∀ k, k < 8 →
      (bit_reverse8 v).testBit k = v.testBit (7 - k))
  ∧ (idx_0_set exIdx).commit.idx_0.uval = 0xCC
  ∧ (idx_1_set exIdx).commit.idx_1.uval = 0xDD := by
  set_option maxRecDepth 4000 in
  exact ⟨rfl, rfl, rfl, rfl, by decide, rfl, rfl⟩

/-- Closed witness for C6 at the worked example `j = 0x333`, `m = 0x11`. -/
theorem C6_set_bit_reversed_witness :
    (idx_0_set exIdx).idx_0.next = some (bit_reverse8 (exIdx.j.uval &&& 0xFF))
  ∧ (idx_1_set exIdx).idx_1.next
      = some ((bit_reverse8 (exIdx.j.uval &&& 0xFF) + exIdx.m.uval) &&& 0xFF)
  ∧ (idx_0_set exIdx).pending_writes = insert 12 exIdx.pending_writes
  ∧ (idx_1_set exIdx).pending_writes = insert 13 exIdx.pending_writes
  ∧ (∀ v, v < 256 → ∀ k, k < 8 →
      (bit_reverse8 v).testBit k = v.testBit (7 - k))
  ∧ (idx_0_set exIdx).commit.idx_0.uval = 0xCC
  ∧ (idx_1_set exIdx).commit.idx_1.uval = 0xDD :=
  C6_set_bit_reversed exIdx

/-- Claim C8: `commit` and `abort` always leave the pending set empty, and
when the pending set is already empty each is an idempotent no-op: the whole
file state — every register's current and pending value included — is
unchanged.  (The hypothesis records the in-range pending indices the
source's dict lookups require.) -/
theorem C8_commit_abort_clear_pending (f : PQSPRFile)
    (hwf : ∀ i ∈ f.pending_writes, i < 17) :
    f.commit.pending_writes = ∅
  ∧ f.abort.pending_writes = ∅
  ∧ (f.pending_writes = ∅ → f.commit = f ∧ f.abort = f)
  ∧ f.commit.commit = f.commit
  ∧ f.abort.abort = f.abort :=
  ⟨rfl, rfl,
    fun h => ⟨commit_of_empty f h, abort_of_empty f h⟩,
    commit_of_empty f.commit rfl,
    abort_of_empty f.abort rfl⟩

/-- Closed witness for C8 at a file whose pending set is `{2}`. -/
theorem C8_commit_abort_clear_pending_witness :
    (∀ i ∈ exPend.pending_writes, i < 17)
  ∧ (exPend.commit.pending_writes = ∅
      ∧ exPend.abort.pending_writes = ∅
      ∧ (exPend.pending_writes = ∅ → exPend.commit = exPend ∧ exPend.abort = exPend)
      ∧ exPend.commit.commit = exPend.commit
      ∧ exPend.abort.abort = exPend.abort) :=
  ⟨by decide, C8_commit_abort_clear_pending exPend (by decide)⟩

/-- Claim C9: the paired stride register J2 (modelled from the spec and the
repository tests; the src snapshot's `__init__` omits it) queues the
complementary transform to the rule of M: `(v & 0x7F) << 1` when the mode
flag is clear and `(v & 0xFF) >> 1` when it is set, so that for either mode
value one of M and J2 doubles (growing stride) while the other halves
(shrinking stride); the mode-0 and mode-1 vectors of the repository tests
(`0x7 -> 0xe`, `0xe -> 0x1c`; `0x1c -> 0xe`, `0xe -> 0x7`) are reproduced. -/
theorem C9_j2_complementary_stride (j2 mode : Reg) :
    (PQSPRegJ2.update j2 mode).next
      = some (if mode.uval = 0 then (j2.uval &&& 0x7f) <<< 1 else (j2.uval &&& 0xff) >>> 1)
  ∧ (mode.uval = 0 →
      PQSPRegJ2.update_val j2.uval mode.uval = (j2.uval &&& 0x7f) <<< 1
      ∧ PQSPRegM.update_val j2.uval mode.uval = (j2.uval &&& 0xff) >>> 1)
  ∧ (mode.uval ≠ 0 →
      PQSPRegJ2.update_val j2.uval mode.uval = (j2.uval &&& 0xff) >>> 1
      ∧ PQSPRegM.update_val j2.uval mode.uval = (j2.uval &&& 0x7f) <<< 1)
  ∧ (j2.uval < 128 → PQSPRegJ2.update_val j2.uval 0 = 2 * j2.uval)
  ∧ (j2.uval < 128 → PQSPRegM.update_val j2.uval 1 = 2 * j2.uval)
  ∧ ((PQSPRegJ2.update (initReg 12 32) (initReg 14 32)).commit.uval = 0)
  ∧ PQSPRegJ2.update_val 0x7 0 = 0xe ∧ PQSPRegJ2.update_val 0xe 0 = 0x1c
  ∧ PQSPRegJ2.update_val 0x1c 1 = 0xe ∧ PQSPRegJ2.update_val 0xe 1 = 0x7 := by
  have hdouble : ∀ u : Nat, u < 128 → (u &&& 0x7f) <<< 1 = 2 * u := by
    intro u hu
    have h7f : (0x7f : Nat) = 2 ^ 7 - 1 := by norm_num
    rw [h7f, Nat.and_pow_two_sub_one_eq_mod, Nat.mod_eq_of_lt (by norm_num [hu]),
      Nat.shiftLeft_eq]
    omega
  refine ⟨?_, ?_, ?_, fun h => hdouble _ h, fun h => hdouble _ h,
    rfl, rfl, rfl, rfl, rfl⟩
  · rw [PQSPRegJ2.update, PQSPRegJ2.update_val]
    by_cases h : mode.uval = 0
    · rw [if_neg (by simp [h]), if_pos h]; rfl
    · rw [if_pos h, if_neg h]; rfl
  · intro h
    rw [PQSPRegJ2.update_val, PQSPRegM.update_val, if_neg (by simp [h]),
      if_neg (by simp [h])]
    exact ⟨rfl, rfl⟩
  · intro h
    rw [PQSPRegJ2.update_val, PQSPRegM.update_val, if_pos h, if_pos h]
    exact ⟨rfl, rfl⟩

/-- Closed witness for C9 at the registers of the repository's J2 tests. -/
theorem C9_j2_complementary_stride_witness :
    (PQSPRegJ2.update { idx := 12, width := 32, uval := 0x7, next := none }
        (initReg 14 32)).commit.uval = 0xe
  ∧ (PQSPRegJ2.update { idx := 12, width := 32, uval := 0x1c, next := none }
        { idx := 14, width := 32, uval := 1, next := none }).commit.uval = 0xe
  ∧ ((PQSPRegJ2.update { idx := 12, width := 32, uval := 0x7, next := none }
        (initReg 14 32)).next
      = some (if (initReg 14 32).uval = 0
          then (({ idx := 12, width := 32, uval := 0x7, next := none } : Reg).uval &&& 0x7f) <<< 1
          else (({ idx := 12, width := 32, uval := 0x7, next := none } : Reg).uval &&& 0xff) >>> 1)) :=
  ⟨rfl, rfl,
    (C9_j2_complementary_stride
      { idx := 12, width := 32, uval := 0x7, next := none } (initReg 14 32)).1⟩

/-- Claim C10: for every 256-bit current value of the Omega register (no
bound assumed), `PQSPRegOmega.update` queues a single 32-bit quantity — the
full current value is squared and the reduction keeps only
`(s >> 32) mod 2^32`, conditionally minus `q` — so after update and commit
the whole 256-bit value of Omega is strictly below `2^32` and lanes 1
through 7 are zero regardless of their previous contents. -/
theorem C10_omega_update_narrows (f : PQSPRFile) :
    (PQSPRegOmega.update f).omega.next
      = some (montUpdateSpecVal f.omega.uval f.omega.uval f.q.uval f.q_dash.uval)
  ∧ (PQSPRegOmega.update f).omega.uval = f.omega.uval
  ∧ (PQSPRegOmega.update f).pending_writes = insert 3 f.pending_writes
  ∧ (PQSPRegOmega.update f).commit.omega.uval < 2 ^ 32
  ∧ laneOf (PQSPRegOmega.update f).commit.omega.uval 1 = 0
  ∧ laneOf (PQSPRegOmega.update f).commit.omega.uval 2 = 0
  ∧ laneOf (PQSPRegOmega.update f).commit.omega.uval 3 = 0
  ∧ laneOf (PQSPRegOmega.update f).commit.omega.uval 4 = 0
  ∧ laneOf (PQSPRegOmega.update f).commit.omega.uval 5 = 0
  ∧ laneOf (PQSPRegOmega.update f).commit.omega.uval 6 = 0
  ∧ laneOf (PQSPRegOmega.update f).commit.omega.uval 7 = 0 := by
  have hnext : (PQSPRegOmega.update f).omega.next
      = some (montUpdateSpecVal f.omega.uval f.omega.uval f.q.uval f.q_dash.uval) :=
    congrArg some
      (mont_code_eq_spec f.omega.uval f.omega.uval f.q.uval f.q_dash.uval)
  have huval : (PQSPRegOmega.update f).commit.omega.uval
      = montUpdateSpecVal f.omega.uval f.omega.uval f.q.uval f.q_dash.uval := by
    have h3 : (PQSPRegOmega.update f).commit.omega
        = (PQSPRegOmega.update f).omega.commit := by
      show PQSPRFile.commitIf _ 3 _ = _
      rw [PQSPRFile.commitIf, if_pos]
      show (3 : Nat) ∈ insert 3 f.pending_writes
      exact Finset.mem_insert_self _ _
    rw [h3, Reg.commit, hnext]
    rfl
  have hlt : (PQSPRegOmega.update f).commit.omega.uval < 2 ^ 32 := by
    rw [huval]; exact montUpdateSpecVal_lt _ _ _ _
  exact ⟨hnext, rfl, rfl, hlt,
    laneOf_eq_zero_of_lt hlt (by omega), laneOf_eq_zero_of_lt hlt (by omega),
    laneOf_eq_zero_of_lt hlt (by omega), laneOf_eq_zero_of_lt hlt (by omega),
    laneOf_eq_zero_of_lt hlt (by omega), laneOf_eq_zero_of_lt hlt (by omega),
    laneOf_eq_zero_of_lt hlt (by omega)⟩

end OtbnPq
